import Mathlib

/-!
Shallow embedding of `src/index.js` (the `eco` object): a façade over a
browser `localStorage`-style string store, offering numeric get/set/add/
sub/mul/div/del/res plus batch variants and range randomization.

Modelling choices:
* JS numbers are modelled as `JsNum`: a rational (`fin`) or one of the
  IEEE special values `nan`, `inf` (+Infinity), `ninf` (-Infinity).
  Rounding of doubles is abstracted away (rationals are exact); negative
  zero is not modelled (`fin 0` stands for both zeros).
* The values `JSON.parse` can yield here are `JVal`: `null`, a number,
  or a string.  A stored cell is either well-formed JSON text (`txt j`)
  or text `JSON.parse` throws on (`malformed`).
* The world `W` carries the backing store (`String → Option Cell`), the
  stream of future `Math.random()` outputs (`rand : ℕ → ℚ`, each call
  consuming index 0 and shifting), and a flag `fail`: when `fail = true`
  every backing-store primitive throws, modelling quota/access faults.
  Exceptions are modelled with `Except Unit`; each public operation
  catches at its boundary exactly where the source has `try/catch`.
* JS string coercions (`ToNumber` of a string, number formatting for
  `+` concatenation) are modelled by simple executable stand-ins
  (`strToNumber`, `jsNumToString`); no claim exercises those paths.
-/

namespace Eco

/-- A JS number: NaN, +Infinity, -Infinity, or a finite value (exact ℚ). -/
inductive JsNum where
  | nan : JsNum
  | inf : JsNum
  | ninf : JsNum
  | fin : ℚ → JsNum
deriving DecidableEq, Repr

/-- IEEE negation. -/
def jneg : JsNum → JsNum
  | .nan => .nan
  | .inf => .ninf
  | .ninf => .inf
  | .fin a => .fin (-a)

/-- IEEE addition (JS `+` on two numbers). -/
def jadd : JsNum → JsNum → JsNum
  | .nan, _ => .nan
  | _, .nan => .nan
  | .inf, .ninf => .nan
  | .ninf, .inf => .nan
  | .inf, _ => .inf
  | _, .inf => .inf
  | .ninf, _ => .ninf
  | _, .ninf => .ninf
  | .fin a, .fin b => .fin (a + b)

/-- IEEE subtraction: `x - y = x + (-y)`. -/
def jsub (x y : JsNum) : JsNum := jadd x (jneg y)

/-- IEEE multiplication (JS `*`). -/
def jmul : JsNum → JsNum → JsNum
  | .nan, _ => .nan
  | _, .nan => .nan
  | .fin a, .fin b => .fin (a * b)
  | .inf, .inf => .inf
  | .inf, .ninf => .ninf
  | .ninf, .inf => .ninf
  | .ninf, .ninf => .inf
  | .inf, .fin b => if 0 < b then .inf else if b < 0 then .ninf else .nan
  | .fin a, .inf => if 0 < a then .inf else if a < 0 then .ninf else .nan
  | .ninf, .fin b => if 0 < b then .ninf else if b < 0 then .inf else .nan
  | .fin a, .ninf => if 0 < a then .ninf else if a < 0 then .inf else .nan

/-- IEEE division (JS `/`): finite/0 is ±Infinity, 0/0 is NaN. -/
def jdiv : JsNum → JsNum → JsNum
  | .nan, _ => .nan
  | _, .nan => .nan
  | .fin a, .fin b =>
      if b = 0 then (if a = 0 then .nan else if 0 < a then .inf else .ninf)
      else .fin (a / b)
  | .inf, .inf => .nan
  | .inf, .ninf => .nan
  | .ninf, .inf => .nan
  | .ninf, .ninf => .nan
  | .inf, .fin b => if b < 0 then .ninf else .inf
  | .ninf, .fin b => if b < 0 then .inf else .ninf
  | .fin _, .inf => .fin 0
  | .fin _, .ninf => .fin 0

/-- `Math.max` on two numbers: NaN-propagating maximum. -/
def jmax : JsNum → JsNum → JsNum
  | .nan, _ => .nan
  | _, .nan => .nan
  | .inf, _ => .inf
  | _, .inf => .inf
  | .ninf, y => y
  | x, .ninf => x
  | .fin a, .fin b => .fin (max a b)

/-- `Math.floor`. -/
def jfloor : JsNum → JsNum
  | .nan => .nan
  | .inf => .inf
  | .ninf => .ninf
  | .fin q => .fin ((⌊q⌋ : ℤ) : ℚ)

/-- A value `JSON.parse` can yield for the cells this program writes:
`null`, a number, or a string. -/
inductive JVal where
  | vnull : JVal
  | vnum : ℚ → JVal
  | vstr : String → JVal
deriving DecidableEq, Repr

/-- One stored cell: JSON text for a `JVal`, or text JSON.parse rejects. -/
inductive Cell where
  | txt : JVal → Cell
  | malformed : Cell
deriving DecidableEq, Repr

/-- The world: backing store, future `Math.random()` outputs, and a flag
making every backing-store primitive throw (quota/access fault model). -/
structure W where
  store : String → Option Cell
  rand : ℕ → ℚ
  fail : Bool

/-- Shift the random stream after one `Math.random()` call. -/
def tailR (r : ℕ → ℚ) : ℕ → ℚ := fun n => r (n + 1)

/-- `randomize(min, max)` from `src/index.js` line 111:
`Math.floor(Math.random() * (max - min + 1)) + min`, with the value of
`Math.random()` passed explicitly.  A pure function of its arguments. -/
def randomize (r : ℚ) (mn mx : JsNum) : JsNum :=
  jadd (jfloor (jmul (.fin r) (jadd (jsub mx mn) (.fin 1)))) mn

/-- A JS value passed to a public operation: a number, a string, or an
object exposing both `min` and `max` (a RandomRange). -/
inductive JsVal where
  | num : JsNum → JsVal
  | str : String → JsVal
  | objRange : JsNum → JsNum → JsVal
deriving DecidableEq, Repr

/-- The result of the RandomRange check at the head of each operation:
ranges are gone, a number or a string remains. -/
inductive Resolved where
  | rnum : JsNum → Resolved
  | rstr : String → Resolved
deriving DecidableEq, Repr

/-- The `typeof value === "object" && value.min !== undefined &&
value.max !== undefined` guard plus the `this.randomize` call present at
the head of `set`/`add`/`sub`/`mul`/`div` and the batch loops.  Consumes
one random draw exactly when the value is a RandomRange. -/
def resolveValue (w : W) : JsVal → Resolved × W
  | .num n => (.rnum n, w)
  | .str s => (.rstr s, w)
  | .objRange mn mx =>
      (.rnum (randomize (w.rand 0) mn mx), { w with rand := tailR w.rand })

/-- Re-inject a resolved value as a JS value (the batch loops rebind the
loop variable and then pass it to the scalar operation). -/
def injR : Resolved → JsVal
  | .rnum n => .num n
  | .rstr s => .str s

/-- Models JS `ToNumber` on a string: trimmed-empty is 0, an integer
literal is its value, anything else NaN.  (Stand-in: JS also accepts
float/hex literals; no claim exercises this path.) -/
def strToNumber (s : String) : JsNum :=
  if s.trim = "" then .fin 0
  else
    match s.trim.toInt? with
    | some n => .fin (n : ℚ)
    | none => .nan

/-- JS `ToNumber` of a parsed value (used by `-`, `*`, `/`). -/
def toNumber : JVal → JsNum
  | .vnull => .fin 0
  | .vnum q => .fin q
  | .vstr s => strToNumber s

/-- JS `ToNumber` of a resolved operand. -/
def toNumberR : Resolved → JsNum
  | .rnum n => n
  | .rstr s => strToNumber s

/-- Models JS `ToString` of a number (stand-in: rational rendering is not
exact double formatting; no claim exercises this path). -/
def jsNumToString : JsNum → String
  | .nan => "NaN"
  | .inf => "Infinity"
  | .ninf => "-Infinity"
  | .fin q => toString q

/-- JS `ToString` of a parsed value. -/
def jvalToString : JVal → String
  | .vnull => "null"
  | .vnum q => jsNumToString (.fin q)
  | .vstr s => s

/-- JS `ToString` of a resolved operand. -/
def resolvedToString : Resolved → String
  | .rnum n => jsNumToString n
  | .rstr s => s

/-- `JSON.stringify` of the value `set` persists: non-finite numbers
serialize as `null`; finite numbers and strings keep their value. -/
def stringifyResolved : Resolved → JVal
  | .rnum .nan => .vnull
  | .rnum .inf => .vnull
  | .rnum .ninf => .vnull
  | .rnum (.fin q) => .vnum q
  | .rstr s => .vstr s

/-- Pointwise store update. -/
def updateStore (s : String → Option Cell) (k : String) (c : Option Cell) :
    String → Option Cell :=
  fun x => if x = k then c else s x

/-- `localStorage.getItem`: throws when the backend faults. -/
def getItem (w : W) (k : String) : Except Unit (Option Cell) :=
  if w.fail then .error () else .ok (w.store k)

/-- `localStorage.setItem`: throws when the backend faults. -/
def setItem (w : W) (k : String) (c : Cell) : Except Unit W :=
  if w.fail then .error ()
  else .ok { w with store := updateStore w.store k (some c) }

/-- `localStorage.removeItem`: throws when the backend faults. -/
def removeItem (w : W) (k : String) : Except Unit W :=
  if w.fail then .error ()
  else .ok { w with store := updateStore w.store k none }

/-- `localStorage.clear`: throws when the backend faults. -/
def clearStore (w : W) : Except Unit W :=
  if w.fail then .error () else .ok { w with store := fun _ => none }

/-- `JSON.parse(localStorage.getItem(key))`: an absent key gives the JS
`null`, which `JSON.parse` stringifies to `"null"` and parses back to
`null`; malformed text throws. -/
def jsonParse : Option Cell → Except Unit JVal
  | none => .ok .vnull
  | some (.txt j) => .ok j
  | some .malformed => .error ()

/-- `eco.get` (src/index.js lines 7–16): parse the stored text, return 0
on `null`, catch any exception and return 0. -/
def get (w : W) (k : String) : JVal :=
  match getItem w k with
  | .error _ => .vnum 0
  | .ok c =>
      match jsonParse c with
      | .error _ => .vnum 0
      | .ok .vnull => .vnum 0
      | .ok v => v

/-- `eco.set` (src/index.js lines 24–38): resolve a RandomRange, then
`localStorage.setItem(key, JSON.stringify(value))`; a store fault is
caught and the write dropped. -/
def set (w : W) (k : String) (v : JsVal) : W :=
  let p := resolveValue w v
  match setItem p.2 k (.txt (stringifyResolved p.1)) with
  | .error _ => p.2
  | .ok w2 => w2

/-- JS `+` with a parsed left operand and a resolved right operand:
string on either side concatenates, otherwise numeric addition. -/
def jsPlus (x : JVal) (a : Resolved) : Resolved :=
  match x, a with
  | .vstr s, a => .rstr (s ++ resolvedToString a)
  | x, .rstr s => .rstr (jvalToString x ++ s)
  | x, .rnum n => .rnum (jadd (toNumber x) n)

/-- `eco.add` (src/index.js lines 46–59): resolve, then
`this.set(key, this.get(key) + amount)`. -/
def add (w : W) (k : String) (a : JsVal) : W :=
  let p := resolveValue w a
  set p.2 k (injR (jsPlus (get p.2 k) p.1))

/-- `eco.sub` (src/index.js lines 67–80): resolve, then
`this.set(key, Math.max(0, this.get(key) - amount))`. -/
def sub (w : W) (k : String) (a : JsVal) : W :=
  let p := resolveValue w a
  set p.2 k (.num (jmax (.fin 0) (jsub (toNumber (get p.2 k)) (toNumberR p.1))))

/-- `eco.mul` (src/index.js lines 121–134): resolve, then
`this.set(key, this.get(key) * amount)`. -/
def mul (w : W) (k : String) (a : JsVal) : W :=
  let p := resolveValue w a
  set p.2 k (.num (jmul (toNumber (get p.2 k)) (toNumberR p.1)))

/-- `eco.div` (src/index.js lines 142–155): resolve, then
`this.set(key, Math.max(0, this.get(key) / amount))`. -/
def div (w : W) (k : String) (a : JsVal) : W :=
  let p := resolveValue w a
  set p.2 k (.num (jmax (.fin 0) (jdiv (toNumber (get p.2 k)) (toNumberR p.1))))

/-- `eco.del` (src/index.js lines 86–92): `localStorage.removeItem(key)`
with the fault caught. -/
def del (w : W) (k : String) : W :=
  match removeItem w k with
  | .error _ => w
  | .ok w2 => w2

/-- `eco.res` (src/index.js lines 97–103): `localStorage.clear()` with
the fault caught. -/
def res (w : W) : W :=
  match clearStore w with
  | .error _ => w
  | .ok w2 => w2

/-- One item of a batch call: `{ key, value }`. -/
structure BatchItem where
  key : String
  value : JsVal

/-- `eco.batchSet` (src/index.js lines 162–177): for each item in order,
resolve a RandomRange in the loop, then call `this.set`. -/
def batchSet (w : W) (items : List BatchItem) : W :=
  items.foldl
    (fun w it =>
      let p := resolveValue w it.value
      set p.2 it.key (injR p.1)) w

/-- `eco.batchAdd` (src/index.js lines 184–199): for each item in order,
resolve in the loop, then call `this.add`. -/
def batchAdd (w : W) (items : List BatchItem) : W :=
  items.foldl
    (fun w it =>
      let p := resolveValue w it.value
      add p.2 it.key (injR p.1)) w

/-- `eco.batchSub` (src/index.js lines 206–221). -/
def batchSub (w : W) (items : List BatchItem) : W :=
  items.foldl
    (fun w it =>
      let p := resolveValue w it.value
      sub p.2 it.key (injR p.1)) w

/-- `eco.batchMul` (src/index.js lines 228–243). -/
def batchMul (w : W) (items : List BatchItem) : W :=
  items.foldl
    (fun w it =>
      let p := resolveValue w it.value
      mul p.2 it.key (injR p.1)) w

/-- `eco.batchDiv` (src/index.js lines 250–265). -/
def batchDiv (w : W) (items : List BatchItem) : W :=
  items.foldl
    (fun w it =>
      let p := resolveValue w it.value
      div p.2 it.key (injR p.1)) w

/-- `eco.batchDel` (src/index.js lines 271–277): `this.del` per key. -/
def batchDel (w : W) (keys : List String) : W :=
  keys.foldl (fun w k => del w k) w

/-- `eco.batchGet` (src/index.js lines 284–294): builds `{key: get(key)}`
over the input order, modelled as an association list. -/
def batchGet (w : W) (keys : List String) : List (String × JVal) :=
  keys.foldl (fun acc k => acc ++ [(k, get w k)]) []

/-- An empty, non-faulting world with a constant-zero random source. -/
def w0 : W := ⟨fun _ => none, fun _ => 0, false⟩

/-- A faulting world: the backing store throws on every primitive. -/
def wFail : W := ⟨fun _ => some (.txt (.vnum 7)), fun _ => 0, true⟩

/-! ### Basic lemmas about resolution and the store primitives -/

theorem resolveValue_injR (w : W) (r : Resolved) :
    resolveValue w (injR r) = (r, w) := by
  cases r <;> rfl

theorem resolveValue_store (w : W) (v : JsVal) :
    (resolveValue w v).2.store = w.store := by
  cases v <;> rfl

theorem resolveValue_fail (w : W) (v : JsVal) :
    (resolveValue w v).2.fail = w.fail := by
  cases v <;> rfl

theorem set_fail (w : W) (k : String) (v : JsVal) :
    (set w k v).fail = w.fail := by
  cases v <;> cases hf : w.fail <;> simp [set, setItem, resolveValue, hf]

theorem set_store_of_fail (w : W) (k : String) (v : JsVal)
    (h : w.fail = true) : (set w k v).store = w.store := by
  cases v <;> unfold set setItem <;> simp [resolveValue, h]

theorem set_store_resolved (w : W) (k : String) (n : JsNum)
    (h : w.fail = false) :
    (set w k (.num n)).store =
      updateStore w.store k (some (.txt (stringifyResolved (.rnum n)))) := by
  unfold set setItem
  simp [resolveValue, h]

theorem set_rand_num (w : W) (k : String) (n : JsNum) :
    (set w k (.num n)).rand = w.rand := by
  unfold set setItem
  cases hf : w.fail <;> simp [resolveValue, hf]

theorem get_of_fail (w : W) (k : String) (h : w.fail = true) :
    get w k = .vnum 0 := by
  unfold get getItem
  simp [h]

theorem get_eq_of_store_txt (w : W) (k : String) (j : JVal)
    (hf : w.fail = false) (hs : w.store k = some (.txt j)) (hj : j ≠ .vnull) :
    get w k = j := by
  cases j with
  | vnull => exact absurd rfl hj
  | vnum q => unfold get getItem jsonParse; simp [hf, hs]
  | vstr s => unfold get getItem jsonParse; simp [hf, hs]

theorem get_set_fin (w : W) (k : String) (q : ℚ) (h : w.fail = false) :
    get (set w k (.num (.fin q))) k = .vnum q := by
  have hf : (set w k (.num (.fin q))).fail = false := by
    rw [set_fail]; exact h
  have hs : (set w k (.num (.fin q))).store k = some (.txt (.vnum q)) := by
    rw [set_store_resolved w k (.fin q) h]
    simp [updateStore, stringifyResolved]
  exact get_eq_of_store_txt _ _ _ hf hs (by simp)

theorem get_set_str (w : W) (k : String) (s : String) (h : w.fail = false) :
    get (set w k (.str s)) k = .vstr s := by
  have hf : (set w k (.str s)).fail = false := by
    rw [set_fail]; exact h
  have hs : (set w k (.str s)).store k = some (.txt (.vstr s)) := by
    unfold set setItem
    simp [resolveValue, h, updateStore, stringifyResolved]
  exact get_eq_of_store_txt _ _ _ hf hs (by simp)

theorem set_store_other (w : W) (k k' : String) (v : JsVal) (h : k' ≠ k) :
    (set w k v).store k' = w.store k' := by
  cases v <;> cases hf : w.fail <;>
    simp [set, setItem, resolveValue, hf, updateStore, h]

theorem get_returns_zero (w : W) (k : String)
    (h : w.store k = none ∨ w.store k = some Cell.malformed ∨
         w.store k = some (Cell.txt JVal.vnull)) :
    get w k = .vnum 0 := by
  cases hf : w.fail with
  | true => exact get_of_fail w k hf
  | false =>
      rcases h with h | h | h <;> unfold get getItem jsonParse <;> simp [hf, h]

theorem sub_eq_set (w : W) (k : String) (q a : ℚ)
    (hq : get w k = .vnum q) :
    sub w k (.num (.fin a)) = set w k (.num (.fin (max 0 (q - a)))) := by
  unfold sub
  simp [resolveValue, hq, toNumber, toNumberR, jsub, jneg, jadd, jmax,
    sub_eq_add_neg]

theorem div_zero_eq_set (w : W) (k : String) (q : ℚ)
    (hq : get w k = .vnum q) :
    (0 < q → div w k (.num (.fin 0)) = set w k (.num .inf)) ∧
    (q = 0 → div w k (.num (.fin 0)) = set w k (.num .nan)) := by
  constructor
  · intro hc
    have hq0 : q ≠ 0 := ne_of_gt hc
    unfold div
    simp [resolveValue, hq, toNumber, toNumberR, jdiv, jmax, hq0, hc]
  · intro hc
    unfold div
    simp [resolveValue, hq, toNumber, toNumberR, jdiv, jmax, hc]

/-! ### Claim theorems -/

/-- Claim C1: for every key `k` and every finite number `v`, under a
functioning backend, `set(k, v); get(k)` returns `v` (set/get
round-trip); non-finite values are the stated exception. -/
theorem claim_set_get_roundtrip (w : W) (k : String) (q : ℚ)
    (h : w.fail = false) :
    get (set w k (.num (.fin q))) k = .vnum q :=
  get_set_fin w k q h

/-- Witness for C1 at `w0`, key "coins", value 5. -/
theorem claim_set_get_roundtrip_witness :
    w0.fail = false ∧ get (set w0 "coins" (.num (.fin 5))) "coins" = .vnum 5 :=
  ⟨rfl, claim_set_get_roundtrip w0 "coins" 5 rfl⟩

/-- Claim C2: `get` returns 0 when the key is absent, the stored text is
not valid encoded data, or decoding yields `null`; the decode failure is
swallowed (`get` is total and never raises).  In particular a key never
written reads as 0. -/
theorem claim_get_defaults_to_zero (w : W) (k : String)
    (h : w.store k = none ∨ w.store k = some Cell.malformed ∨
         w.store k = some (Cell.txt JVal.vnull)) :
    get w k = .vnum 0 :=
  get_returns_zero w k h

/-- Witness for C2 at `w0` (key never written). -/
theorem claim_get_defaults_to_zero_witness :
    w0.store "gold" = none ∧ get w0 "gold" = .vnum 0 :=
  ⟨rfl, claim_get_defaults_to_zero w0 "gold" (Or.inl rfl)⟩

/-- Claim C3: with a numeric stored value `q`, `sub(k, a)` stores
`max(0, get(k) - a)`, which is never negative: oversubtraction
saturates at zero. -/
theorem claim_sub_clamps_at_zero (w : W) (k : String) (q a : ℚ)
    (hf : w.fail = false) (hq : get w k = .vnum q) :
    get (sub w k (.num (.fin a))) k = .vnum (max 0 (q - a)) ∧
    (0 : ℚ) ≤ max 0 (q - a) := by
  rw [sub_eq_set w k q a hq]
  exact ⟨get_set_fin w k _ hf, le_max_left 0 (q - a)⟩

/-- Witness for C3: `set(k,5); sub(k,10)` leaves `get(k) == 0`. -/
theorem claim_sub_clamps_at_zero_witness :
    (set w0 "k" (.num (.fin 5))).fail = false ∧
    get (set w0 "k" (.num (.fin 5))) "k" = .vnum 5 ∧
    (get (sub (set w0 "k" (.num (.fin 5))) "k" (.num (.fin 10))) "k" =
        .vnum (max 0 (5 - 10)) ∧
      (0 : ℚ) ≤ max 0 (5 - 10)) :=
  ⟨rfl, by decide,
    claim_sub_clamps_at_zero (set w0 "k" (.num (.fin 5))) "k" 5 10 rfl
      (by decide)⟩

/-- Claim C4, as stated, is false on the code: dividing a positive
balance by zero does compute `max(0, Infinity) = Infinity`, but
`JSON.stringify(Infinity)` is `"null"`, so the persisted cell is `null`
and the subsequent `get` returns 0 — the non-finite result is not passed
through to the persisted value or to `get`.  Concretely with
`set(k,5); div(k,0)`. -/
theorem claim_div_infinity_counterexample :
    jmax (.fin 0) (jdiv (.fin 5) (.fin 0)) = .inf ∧
    (div (set w0 "k" (.num (.fin 5))) "k" (.num (.fin 0))).store "k" =
      some (.txt .vnull) ∧
    get (div (set w0 "k" (.num (.fin 5))) "k" (.num (.fin 0))) "k" =
      .vnum 0 := by
  decide

/-- Claim C4 (amended): when `div(key, 0)` is applied to a non-negative
numeric balance, the native float result (`Infinity` for a positive
balance, `NaN` for a zero balance) survives the `max(0, _)` clamp, but
JSON serialization stores `null` for non-finite numbers, so the
persisted cell is `null` and a subsequent `get` returns 0 rather than
`Infinity`/`NaN`. -/
theorem claim_div_by_zero_persists_null (w : W) (k : String) (q : ℚ)
    (hf : w.fail = false) (hq : get w k = .vnum q) (h0 : 0 ≤ q) :
    (div w k (.num (.fin 0))).store k = some (.txt .vnull) ∧
    get (div w k (.num (.fin 0))) k = .vnum 0 := by
  rcases lt_or_eq_of_le h0 with hlt | heq
  · rw [(div_zero_eq_set w k q hq).1 hlt]
    have hs : (set w k (.num .inf)).store k = some (.txt .vnull) := by
      rw [set_store_resolved w k .inf hf]
      simp [updateStore, stringifyResolved]
    exact ⟨hs, get_returns_zero _ _ (Or.inr (Or.inr hs))⟩
  · rw [(div_zero_eq_set w k q hq).2 heq.symm]
    have hs : (set w k (.num .nan)).store k = some (.txt .vnull) := by
      rw [set_store_resolved w k .nan hf]
      simp [updateStore, stringifyResolved]
    exact ⟨hs, get_returns_zero _ _ (Or.inr (Or.inr hs))⟩

/-- Witness for the amended C4 at `set(k,5)` then `div(k,0)`. -/
theorem claim_div_by_zero_persists_null_witness :
    ((set w0 "k" (.num (.fin 5))).fail = false ∧
      get (set w0 "k" (.num (.fin 5))) "k" = .vnum 5 ∧ (0 : ℚ) ≤ 5) ∧
    ((div (set w0 "k" (.num (.fin 5))) "k" (.num (.fin 0))).store "k" =
        some (.txt .vnull) ∧
      get (div (set w0 "k" (.num (.fin 5))) "k" (.num (.fin 0))) "k" =
        .vnum 0) :=
  ⟨⟨rfl, by decide, by norm_num⟩,
    claim_div_by_zero_persists_null (set w0 "k" (.num (.fin 5))) "k" 5 rfl
      (by decide) (by norm_num)⟩

/-- Claim C10: `set` does not validate that its value is a number: a
string (not an object with `min` and `max`) is encoded and persisted
as-is, and a subsequent `get` returns that string unchanged, not 0. -/
theorem claim_set_accepts_non_numbers (w : W) (k s : String)
    (h : w.fail = false) :
    (set w k (.str s)).store k = some (.txt (.vstr s)) ∧
    get (set w k (.str s)) k = .vstr s := by
  refine ⟨?_, get_set_str w k s h⟩
  unfold set setItem
  simp [resolveValue, h, updateStore, stringifyResolved]

/-- Witness for C10 at `w0`, key "k", value "hello". -/
theorem claim_set_accepts_non_numbers_witness :
    w0.fail = false ∧
    ((set w0 "k" (.str "hello")).store "k" = some (.txt (.vstr "hello")) ∧
      get (set w0 "k" (.str "hello")) "k" = .vstr "hello") :=
  ⟨rfl, claim_set_accepts_non_numbers w0 "k" "hello" rfl⟩

theorem add_store_other (w : W) (k k' : String) (a : JsVal) (h : k' ≠ k) :
    (add w k a).store k' = w.store k' := by
  simp only [add]
  rw [set_store_other _ _ _ _ h, resolveValue_store]

theorem sub_store_other (w : W) (k k' : String) (a : JsVal) (h : k' ≠ k) :
    (sub w k a).store k' = w.store k' := by
  simp only [sub]
  rw [set_store_other _ _ _ _ h, resolveValue_store]

theorem mul_store_other (w : W) (k k' : String) (a : JsVal) (h : k' ≠ k) :
    (mul w k a).store k' = w.store k' := by
  simp only [mul]
  rw [set_store_other _ _ _ _ h, resolveValue_store]

theorem div_store_other (w : W) (k k' : String) (a : JsVal) (h : k' ≠ k) :
    (div w k a).store k' = w.store k' := by
  simp only [div]
  rw [set_store_other _ _ _ _ h, resolveValue_store]

theorem del_store_other (w : W) (k k' : String) (h : k' ≠ k) :
    (del w k).store k' = w.store k' := by
  cases hf : w.fail <;> simp [del, removeItem, hf, updateStore, h]

/-- Claim C9: every scalar mutating operation on key `k` leaves the
stored cell of every other key `k'` unchanged; `get`, `batchGet` and
`randomize` return values without producing a new world at all (their
codomains contain no store), so only `res` touches more than the single
named key. -/
theorem claim_scalar_ops_frame (w : W) (k k' : String) (h : k' ≠ k) :
    (∀ v, (set w k v).store k' = w.store k') ∧
    (∀ a, (add w k a).store k' = w.store k') ∧
    (∀ a, (sub w k a).store k' = w.store k') ∧
    (∀ a, (mul w k a).store k' = w.store k') ∧
    (∀ a, (div w k a).store k' = w.store k') ∧
    ((del w k).store k' = w.store k') :=
  ⟨fun v => set_store_other w k k' v h,
   fun a => add_store_other w k k' a h,
   fun a => sub_store_other w k k' a h,
   fun a => mul_store_other w k k' a h,
   fun a => div_store_other w k k' a h,
   del_store_other w k k' h⟩

/-- Witness for C9: setting key "a" leaves key "b" untouched. -/
theorem claim_scalar_ops_frame_witness :
    ("b" : String) ≠ "a" ∧
    (set w0 "a" (.num (.fin 3))).store "b" = w0.store "b" :=
  ⟨by decide, (claim_scalar_ops_frame w0 "a" "b" (by decide)).1
    (.num (.fin 3))⟩

/-- Claim C7: `res()` clears the whole backing store (including entries
not written by this system); afterwards every key reads as 0. -/
theorem claim_res_clears_everything (w : W) (h : w.fail = false) :
    (res w).store = (fun _ => none) ∧ ∀ k, get (res w) k = .vnum 0 := by
  have hs : (res w).store = fun _ => none := by
    unfold res clearStore
    simp [h]
  refine ⟨hs, fun k => get_returns_zero _ k (Or.inl ?_)⟩
  rw [hs]

/-- Witness for C7: a previously-set key reads 0 after `res()`. -/
theorem claim_res_clears_everything_witness :
    (set w0 "g" (.num (.fin 5))).fail = false ∧
    get (res (set w0 "g" (.num (.fin 5)))) "g" = .vnum 0 :=
  ⟨by decide,
    (claim_res_clears_everything (set w0 "g" (.num (.fin 5)))
      (by decide)).2 "g"⟩

/-- Claim C8: `randomize(min, max)` computes
`floor(random() * (max - min + 1)) + min`; for every random draw in
`[0,1)` and integers `min ≤ max` it returns an integer in `[min, max]`
inclusive, and with `min = max` it returns that value.  It is a pure
function of its arguments (its type involves no store). -/
theorem claim_randomize_in_range (r : ℚ) (a b : ℤ)
    (h0 : 0 ≤ r) (h1 : r < 1) (hab : a ≤ b) :
    ∃ n : ℤ, randomize r (.fin (a : ℚ)) (.fin (b : ℚ)) = .fin (n : ℚ) ∧
      a ≤ n ∧ n ≤ b ∧ (a = b → n = a) := by
  have hL : (0 : ℚ) < (b : ℚ) - a + 1 := by
    have : (a : ℚ) ≤ b := by exact_mod_cast hab
    linarith
  have hlow : 0 ≤ ⌊r * ((b : ℚ) - a + 1)⌋ :=
    Int.floor_nonneg.mpr (mul_nonneg h0 (le_of_lt hL))
  have hmul : r * ((b : ℚ) - a + 1) < (b : ℚ) - a + 1 :=
    mul_lt_of_lt_one_left hL h1
  have hhigh : ⌊r * ((b : ℚ) - a + 1)⌋ < b - a + 1 := by
    rw [Int.floor_lt]
    push_cast
    exact hmul
  refine ⟨⌊r * ((b : ℚ) - a + 1)⌋ + a, ?_, by omega, by omega, by omega⟩
  have harg : (b : ℚ) + -(a : ℚ) + 1 = (b : ℚ) - a + 1 := by ring
  simp only [randomize, jsub, jneg, jadd, jmul, jfloor, harg]
  congr 1
  push_cast
  ring

/-- Witness for C8 with `random() = 1/2`, `min = 3`, `max = 7`. -/
theorem claim_randomize_in_range_witness :
    ((0 : ℚ) ≤ 1 / 2 ∧ (1 / 2 : ℚ) < 1 ∧ (3 : ℤ) ≤ 7) ∧
    (∃ n : ℤ,
      randomize (1 / 2) (.fin ((3 : ℤ) : ℚ)) (.fin ((7 : ℤ) : ℚ)) =
          .fin (n : ℚ) ∧
        3 ≤ n ∧ n ≤ 7 ∧ ((3 : ℤ) = 7 → n = 3)) :=
  ⟨⟨by norm_num, by norm_num, by norm_num⟩,
    claim_randomize_in_range (1 / 2) 3 7 (by norm_num) (by norm_num)
      (by norm_num)⟩

/-! ### Failure containment: fail-flag preservation and no-op writes -/

theorem add_fail (w : W) (k : String) (a : JsVal) :
    (add w k a).fail = w.fail := by
  simp only [add]
  rw [set_fail, resolveValue_fail]

theorem sub_fail (w : W) (k : String) (a : JsVal) :
    (sub w k a).fail = w.fail := by
  simp only [sub]
  rw [set_fail, resolveValue_fail]

theorem mul_fail (w : W) (k : String) (a : JsVal) :
    (mul w k a).fail = w.fail := by
  simp only [mul]
  rw [set_fail, resolveValue_fail]

theorem div_fail (w : W) (k : String) (a : JsVal) :
    (div w k a).fail = w.fail := by
  simp only [div]
  rw [set_fail, resolveValue_fail]

theorem del_fail (w : W) (k : String) : (del w k).fail = w.fail := by
  cases hf : w.fail <;> simp [del, removeItem, hf]

theorem res_fail (w : W) : (res w).fail = w.fail := by
  cases hf : w.fail <;> simp [res, clearStore, hf]

theorem add_store_of_fail (w : W) (k : String) (a : JsVal)
    (h : w.fail = true) : (add w k a).store = w.store := by
  simp only [add]
  rw [set_store_of_fail _ _ _ ((resolveValue_fail w a).trans h),
    resolveValue_store]

theorem sub_store_of_fail (w : W) (k : String) (a : JsVal)
    (h : w.fail = true) : (sub w k a).store = w.store := by
  simp only [sub]
  rw [set_store_of_fail _ _ _ ((resolveValue_fail w a).trans h),
    resolveValue_store]

theorem mul_store_of_fail (w : W) (k : String) (a : JsVal)
    (h : w.fail = true) : (mul w k a).store = w.store := by
  simp only [mul]
  rw [set_store_of_fail _ _ _ ((resolveValue_fail w a).trans h),
    resolveValue_store]

theorem div_store_of_fail (w : W) (k : String) (a : JsVal)
    (h : w.fail = true) : (div w k a).store = w.store := by
  simp only [div]
  rw [set_store_of_fail _ _ _ ((resolveValue_fail w a).trans h),
    resolveValue_store]

theorem del_store_of_fail (w : W) (k : String) (h : w.fail = true) :
    (del w k).store = w.store := by
  simp [del, removeItem, h]

theorem res_store_of_fail (w : W) (h : w.fail = true) :
    (res w).store = w.store := by
  simp [res, clearStore, h]

/-- A fold whose step is a store no-op on a faulting world stays a
store no-op on a faulting world. -/
theorem foldl_store_of_fail {α : Type} (f : W → α → W)
    (hf : ∀ w a, w.fail = true → (f w a).store = w.store ∧
      (f w a).fail = true)
    (l : List α) (w : W) (h : w.fail = true) :
    (l.foldl f w).store = w.store ∧ (l.foldl f w).fail = true := by
  induction l generalizing w with
  | nil => exact ⟨rfl, h⟩
  | cons x xs ih =>
      obtain ⟨h1, h2⟩ := hf w x h
      obtain ⟨h3, h4⟩ := ih (f w x) h2
      exact ⟨h3.trans h1, h4⟩

theorem batchGet_foldl_aux (w : W) (keys : List String)
    (acc : List (String × JVal)) :
    keys.foldl (fun acc k => acc ++ [(k, get w k)]) acc =
      acc ++ keys.map (fun k => (k, get w k)) := by
  induction keys generalizing acc with
  | nil => simp
  | cons x xs ih => simp [ih]

theorem batchGet_eq_map (w : W) (keys : List String) :
    batchGet w keys = keys.map (fun k => (k, get w k)) := by
  unfold batchGet
  rw [batchGet_foldl_aux]
  simp

theorem batchSet_store_of_fail (w : W) (items : List BatchItem)
    (h : w.fail = true) : (batchSet w items).store = w.store := by
  refine (foldl_store_of_fail _ (fun w it hw => ?_) items w h).1
  constructor
  · rw [set_store_of_fail _ _ _ ((resolveValue_fail w it.value).trans hw),
      resolveValue_store]
  · rw [set_fail, resolveValue_fail]; exact hw

theorem batchAdd_store_of_fail (w : W) (items : List BatchItem)
    (h : w.fail = true) : (batchAdd w items).store = w.store := by
  refine (foldl_store_of_fail _ (fun w it hw => ?_) items w h).1
  constructor
  · rw [add_store_of_fail _ _ _ ((resolveValue_fail w it.value).trans hw),
      resolveValue_store]
  · rw [add_fail, resolveValue_fail]; exact hw

theorem batchSub_store_of_fail (w : W) (items : List BatchItem)
    (h : w.fail = true) : (batchSub w items).store = w.store := by
  refine (foldl_store_of_fail _ (fun w it hw => ?_) items w h).1
  constructor
  · rw [sub_store_of_fail _ _ _ ((resolveValue_fail w it.value).trans hw),
      resolveValue_store]
  · rw [sub_fail, resolveValue_fail]; exact hw

theorem batchMul_store_of_fail (w : W) (items : List BatchItem)
    (h : w.fail = true) : (batchMul w items).store = w.store := by
  refine (foldl_store_of_fail _ (fun w it hw => ?_) items w h).1
  constructor
  · rw [mul_store_of_fail _ _ _ ((resolveValue_fail w it.value).trans hw),
      resolveValue_store]
  · rw [mul_fail, resolveValue_fail]; exact hw

theorem batchDiv_store_of_fail (w : W) (items : List BatchItem)
    (h : w.fail = true) : (batchDiv w items).store = w.store := by
  refine (foldl_store_of_fail _ (fun w it hw => ?_) items w h).1
  constructor
  · rw [div_store_of_fail _ _ _ ((resolveValue_fail w it.value).trans hw),
      resolveValue_store]
  · rw [div_fail, resolveValue_fail]; exact hw

theorem batchDel_store_of_fail (w : W) (keys : List String)
    (h : w.fail = true) : (batchDel w keys).store = w.store := by
  refine (foldl_store_of_fail _ (fun w k hw => ?_) keys w h).1
  exact ⟨del_store_of_fail w k hw, (del_fail w k).trans hw⟩

/-- Claim C5: every public operation is a total function (no exception
reaches the caller), and when the backing store throws on every
primitive, reads degrade to the safe default 0 (`batchGet` maps every
requested key to 0) while every write is a store no-op. -/
theorem claim_no_exception_escapes (w : W) (h : w.fail = true) :
    (∀ k, get w k = .vnum 0) ∧
    (∀ keys, batchGet w keys = keys.map (fun k => (k, JVal.vnum 0))) ∧
    (∀ k v, (set w k v).store = w.store) ∧
    (∀ k a, (add w k a).store = w.store) ∧
    (∀ k a, (sub w k a).store = w.store) ∧
    (∀ k a, (mul w k a).store = w.store) ∧
    (∀ k a, (div w k a).store = w.store) ∧
    (∀ k, (del w k).store = w.store) ∧
    ((res w).store = w.store) ∧
    (∀ items, (batchSet w items).store = w.store) ∧
    (∀ items, (batchAdd w items).store = w.store) ∧
    (∀ items, (batchSub w items).store = w.store) ∧
    (∀ items, (batchMul w items).store = w.store) ∧
    (∀ items, (batchDiv w items).store = w.store) ∧
    (∀ keys, (batchDel w keys).store = w.store) := by
  refine ⟨fun k => get_of_fail w k h, fun keys => ?_,
    fun k v => set_store_of_fail w k v h,
    fun k a => add_store_of_fail w k a h,
    fun k a => sub_store_of_fail w k a h,
    fun k a => mul_store_of_fail w k a h,
    fun k a => div_store_of_fail w k a h,
    fun k => del_store_of_fail w k h,
    res_store_of_fail w h,
    fun items => batchSet_store_of_fail w items h,
    fun items => batchAdd_store_of_fail w items h,
    fun items => batchSub_store_of_fail w items h,
    fun items => batchMul_store_of_fail w items h,
    fun items => batchDiv_store_of_fail w items h,
    fun keys => batchDel_store_of_fail w keys h⟩
  rw [batchGet_eq_map]
  exact List.map_congr_left fun k _ => by rw [get_of_fail w k h]

/-- Witness for C5 at the concrete faulting world `wFail`. -/
theorem claim_no_exception_escapes_witness :
    wFail.fail = true ∧
    get wFail "x" = .vnum 0 ∧
    batchGet wFail ["x", "y"] = [("x", .vnum 0), ("y", .vnum 0)] ∧
    (set wFail "x" (.num (.fin 3))).store = wFail.store :=
  ⟨rfl, (claim_no_exception_escapes wFail rfl).1 "x",
    (claim_no_exception_escapes wFail rfl).2.1 ["x", "y"],
    (claim_no_exception_escapes wFail rfl).2.2.1 "x" (.num (.fin 3))⟩

/-! ### Batch operations apply the scalar operation sequentially -/

theorem add_eq_set (w : W) (k : String) (q a : ℚ)
    (hq : get w k = .vnum q) :
    add w k (.num (.fin a)) = set w k (.num (.fin (q + a))) := by
  unfold add
  simp [resolveValue, hq, jsPlus, toNumber, jadd, injR]

theorem batchSet_step (w : W) (k : String) (v : JsVal) :
    (let p := resolveValue w v
     set p.2 k (injR p.1)) = set w k v := by
  cases v <;> rfl

theorem batchAdd_step (w : W) (k : String) (v : JsVal) :
    (let p := resolveValue w v
     add p.2 k (injR p.1)) = add w k v := by
  cases v <;> rfl

theorem batchSub_step (w : W) (k : String) (v : JsVal) :
    (let p := resolveValue w v
     sub p.2 k (injR p.1)) = sub w k v := by
  cases v <;> rfl

theorem batchMul_step (w : W) (k : String) (v : JsVal) :
    (let p := resolveValue w v
     mul p.2 k (injR p.1)) = mul w k v := by
  cases v <;> rfl

theorem batchDiv_step (w : W) (k : String) (v : JsVal) :
    (let p := resolveValue w v
     div p.2 k (injR p.1)) = div w k v := by
  cases v <;> rfl

/-- Claim C6: each batch arithmetic operation applies its scalar
counterpart to each item in input order (the in-loop RandomRange
resolution commutes with the scalar operation's own, so each item's
range is drawn exactly once, when that item is processed); sequential
application means two items with the same key compose, as in
`set("gold",10); batchAdd` of two `+5` items leaving `get("gold") = 20`. -/
theorem claim_batch_ops_sequential :
    (∀ (w : W) (items : List BatchItem),
      batchSet w items = items.foldl (fun w i => set w i.key i.value) w) ∧
    (∀ (w : W) (items : List BatchItem),
      batchAdd w items = items.foldl (fun w i => add w i.key i.value) w) ∧
    (∀ (w : W) (items : List BatchItem),
      batchSub w items = items.foldl (fun w i => sub w i.key i.value) w) ∧
    (∀ (w : W) (items : List BatchItem),
      batchMul w items = items.foldl (fun w i => mul w i.key i.value) w) ∧
    (∀ (w : W) (items : List BatchItem),
      batchDiv w items = items.foldl (fun w i => div w i.key i.value) w) ∧
    get (batchAdd (set w0 "gold" (.num (.fin 10)))
        [⟨"gold", .num (.fin 5)⟩, ⟨"gold", .num (.fin 5)⟩]) "gold" =
      .vnum 20 := by
  refine ⟨fun w items => ?_, fun w items => ?_, fun w items => ?_,
    fun w items => ?_, fun w items => ?_, ?_⟩
  · unfold batchSet
    exact List.foldl_ext _ _ w fun w i _ => batchSet_step w i.key i.value
  · unfold batchAdd
    exact List.foldl_ext _ _ w fun w i _ => batchAdd_step w i.key i.value
  · unfold batchSub
    exact List.foldl_ext _ _ w fun w i _ => batchSub_step w i.key i.value
  · unfold batchMul
    exact List.foldl_ext _ _ w fun w i _ => batchMul_step w i.key i.value
  · unfold batchDiv
    exact List.foldl_ext _ _ w fun w i _ => batchDiv_step w i.key i.value
  · unfold batchAdd
    simp only [List.foldl_cons, List.foldl_nil, resolveValue, injR]
    have hf0 : (set w0 "gold" (.num (.fin 10))).fail = false := by
      rw [set_fail]; rfl
    have h1 : get (set w0 "gold" (.num (.fin 10))) "gold" = .vnum 10 :=
      get_set_fin w0 "gold" 10 rfl
    rw [add_eq_set _ _ 10 5 h1]
    have e1 : (10 : ℚ) + 5 = 15 := by norm_num
    rw [e1]
    have hf1 :
        (set (set w0 "gold" (.num (.fin 10))) "gold"
          (.num (.fin 15))).fail = false := by
      rw [set_fail, set_fail]; rfl
    have h2 :
        get (set (set w0 "gold" (.num (.fin 10))) "gold"
          (.num (.fin 15))) "gold" = .vnum 15 :=
      get_set_fin _ _ 15 hf0
    rw [add_eq_set _ _ 15 5 h2]
    have e2 : (15 : ℚ) + 5 = 20 := by norm_num
    rw [e2]
    exact get_set_fin _ _ 20 hf1

end Eco
